import Mathlib

/-!
Verification development for the tensor operator-overload binding layer of
this repository (bindings/python/cntk/tensor.py).  The Python functions are
shallowly embedded as executable Lean definitions: machine floats appearing
only as the exact literals 0.0, 1.0 and -1.0 are modelled as integers,
fallible Python code is modelled in the Except monad, and the opaque native
runtime primitives (slice_view, as_shape, numeric_operation_in_place,
matrix_product) are modelled from the specification where noted.
-/

set_option autoImplicit false

/-- Python exception kinds raised (or modelled as raised) by this layer. -/
inductive PyErr where
  | typeError
  | valueError
  | indexError
  | keyError (name : String)
  | nameError
  | shapeMismatch
  deriving DecidableEq, Repr

/-- Python read `l[i]` for a non-negative index: IndexError when out of range. -/
def pyGet {α : Type} (l : List α) (i : Nat) : Except PyErr α :=
  match l[i]? with
  | some v => .ok v
  | none => .error .indexError

/-- Python list assignment `l[i] = v` for a non-negative index. -/
def pySet {α : Type} (l : List α) (i : Nat) (v : α) : Except PyErr (List α) :=
  if i < l.length then .ok (l.set i v) else .error .indexError

/-- Python `x or 0` where `x` is an int or None: 0 is falsy, so the default
is returned both for None and for 0 itself, which collapses to the value
with default 0. -/
def pyOrZero : Option Int → Int
  | none => 0
  | some v => if v = 0 then 0 else v

theorem pyOrZero_some (v : Int) : pyOrZero (some v) = v := by
  rcases eq_or_ne v 0 with h | h <;> simp [pyOrZero, h]

/-- Product of the dimensions of a shape. -/
def prodl : List Nat → Nat
  | [] => 1
  | d :: ds => d * prodl ds

/-- Product of the dimensions of a shape given as Python ints. -/
def prodz : List Int → Int
  | [] => 1
  | d :: ds => d * prodz ds

/-- A Python slice object: start, stop and step, each possibly None. -/
structure PySlice where
  start : Option Int
  stop : Option Int
  step : Option Int
  deriving DecidableEq, Repr

/-- An element of a tuple/list selector in the graph-building path
(TensorOpsMixin.__getitem__): either an int or a value of another type. -/
inductive PyObj where
  | pint (i : Int)
  | pother (tyname : String)
  deriving DecidableEq, Repr

/-- A single selector of the graph-building __getitem__. -/
inductive GKey where
  | gslice (s : PySlice)
  | gint (i : Int)
  | gellipsis
  | gmulti (elems : List PyObj)
  | gother (tyname : String)
  deriving DecidableEq, Repr

/-- The expression graph built by TensorOpsMixin.__getitem__: the receiver
variable, ops.slice nodes and ops.splice nodes. -/
inductive GraphExpr where
  | var
  | sliceOp (r : GraphExpr) (axis beginIndex endIndex : Int)
  | spliceOp (args : List GraphExpr) (axis : Int)

/-- Inner loop of the tuple/list multi-select branch of
TensorOpsMixin.__getitem__: for each element, raise IndexError unless it is
an int, else accumulate `ops.slice(r, axis, idx, idx + 1)`. -/
def tMultiAccum (r : GraphExpr) (axis : Int) : List PyObj → Except PyErr (List GraphExpr)
  | [] => .ok []
  | .pother _ :: _ => .error .indexError
  | .pint idx :: rest => do
      let acc ← tMultiAccum r axis rest
      .ok (.sliceOp r axis idx (idx + 1) :: acc)

/-- Slice branch of TensorOpsMixin.__getitem__: reject a step other than 1
with the error the spec calls SlicingError (a ValueError in the source),
default begin and end to 0 through the falsy `or 0` idiom, and emit an
ops.slice node unless both are 0. -/
def tSliceBranch (r : GraphExpr) (axis axis0 : Int) (s : PySlice) :
    Except PyErr GraphExpr :=
  if s.step ≠ none ∧ s.step ≠ some 1 then .error .valueError
  else
    let bg := pyOrZero s.start
    let en := pyOrZero s.stop
    .ok (if bg ≠ 0 ∨ en ≠ 0 then .sliceOp r (axis + axis0) bg en else r)

/-- Loop body of TensorOpsMixin.__getitem__ over the enumerated key.
`axis` is the enumeration index, `axis0` the offset set by an Ellipsis
(`axis0 = -len(arg)`), `total` the length of the whole key tuple.  An int
selector is normalized into slice(i, i + 1) and handled by the slice
branch. -/
def tLoop (total : Nat) : List GKey → Nat → Int → GraphExpr → Except PyErr GraphExpr
  | [], _, _, r => .ok r
  | k :: rest, axis, axis0, r =>
    match k with
    | .gellipsis => tLoop total rest (axis + 1) (-(total : Int)) r
    | .gint i => do
        let r' ← tSliceBranch r (axis : Int) axis0 ⟨some i, some (i + 1), none⟩
        tLoop total rest (axis + 1) axis0 r'
    | .gslice s => do
        let r' ← tSliceBranch r (axis : Int) axis0 s
        tLoop total rest (axis + 1) axis0 r'
    | .gmulti elems => do
        let acc ← tMultiAccum r (axis : Int) elems
        let r' ← if acc.length > 1 then pure (GraphExpr.spliceOp acc (axis : Int))
                 else pyGet acc 0
        tLoop total rest (axis + 1) axis0 r'
    | .gother _ => .error .indexError

/-- TensorOpsMixin.__getitem__ (graph-building indexing): the key is already
normalized into a tuple (a bare selector is wrapped by the caller). -/
def tensorGetitem (key : List GKey) : Except PyErr GraphExpr :=
  tLoop key.length key 0 0 .var

/-- A single selector of the direct-mode NDArrayViewOpsMixin.__getitem__. -/
inductive NDKey where
  | slice (s : PySlice)
  | int (i : Int)
  | ellipsis
  deriving DecidableEq, Repr

/-- The per-axis state built by the direct-mode __getitem__ loop:
start_offsets, extents, and dims_to_keep. -/
structure ViewGeom where
  starts : List Int
  extents : List Int
  keeps : List Bool
  deriving DecidableEq, Repr

/-- Loop of NDArrayViewOpsMixin.__getitem__ over the enumerated key.  The
source also assigns an `i_off` variable on Ellipsis, but never reads it, so
it is not carried here.  In the slice branch the source guards its step
check with `s.step is not None and i[2] != 1`, subscripting the int loop
index `i`: as soon as the step is not None this raises TypeError, so the
ValueError branch behind it is unreachable. -/
def ndLoop (shape : List Nat) : List NDKey → Nat → ViewGeom → Except PyErr ViewGeom
  | [], _, st => .ok st
  | k :: rest, i, st =>
    match k with
    | .ellipsis => ndLoop shape rest (i + 1) st
    | .slice s => do
        let bg := pyOrZero s.start
        let en ← match s.stop with
                 | some v => pure v
                 | none => (pyGet shape i).map Int.ofNat
        if s.step ≠ none then .error .typeError
        else do
          let bg ← if bg < 0 then do
                     let d ← pyGet shape i
                     pure (bg + (d : Int))
                   else pure bg
          let en ← if en < 0 then do
                     let d ← pyGet shape i
                     pure (en + (d : Int))
                   else pure en
          let so ← pySet st.starts i bg
          let ex ← pySet st.extents i (en - bg)
          let ke ← pySet st.keeps i s.stop.isSome
          ndLoop shape rest (i + 1) ⟨so, ex, ke⟩
    | .int v => do
        let so ← pySet st.starts i v
        let ex ← pySet st.extents i 1
        let ke ← pySet st.keeps i false
        ndLoop shape rest (i + 1) ⟨so, ex, ke⟩

/-- Result of the direct-mode __getitem__: the slice_view call arguments
(start offsets and extents) together with the shape of the final result
after the axis-dropping reshape. -/
structure NDResult where
  starts : List Int
  extents : List Int
  shape : List Int
  deriving DecidableEq, Repr

/-- NDArrayViewOpsMixin.__getitem__ (direct-mode indexing).  The external
slice_view primitive is modelled from the spec as producing a view whose
shape is the extents list; the external as_shape (reshape) primitive is
modelled from the spec as legal exactly when the products of the old and
new dimensions agree. -/
def ndGetitem (shape : List Nat) (key : List NDKey) (keepSingles : Bool) :
    Except PyErr NDResult := do
  let n := shape.length
  let geom ← ndLoop shape key 0
    ⟨List.replicate n 0, shape.map Int.ofNat, List.replicate n true⟩
  let viewShape := geom.extents
  if keepSingles = false ∧ geom.keeps.all id = false then
    let newShape :=
      List.flatten ((List.zip viewShape geom.keeps).map fun p => if p.2 then [p.1] else [])
    if prodz newShape = prodz viewShape then
      .ok ⟨geom.starts, geom.extents, newShape⟩
    else
      .error .shapeMismatch
  else
    .ok ⟨geom.starts, geom.extents, viewShape⟩

/-- Row-major flat offset of a multi-index in a shape, with accumulator. -/
def flattenIdx : List Nat → List Nat → Nat → Nat
  | _, [], acc => acc
  | [], _, acc => acc
  | d :: ds, i :: is, acc => flattenIdx ds is (acc * d + i)

/-- Row-major decomposition of a flat offset into a multi-index. -/
def unflattenIdx : List Nat → Nat → List Nat
  | [], _ => []
  | _ :: ds, f => (f / prodl ds) :: unflattenIdx ds (f % prodl ds)

/-- Whether a multi-index lies inside the box given by per-axis start
offsets and extents. -/
def inBox : List Nat → List Nat → List Nat → Bool
  | [], [], [] => true
  | s :: ss, e :: es, i :: is => decide (s ≤ i) && decide (i < s + e) && inBox ss es is
  | _, _, _ => false

/-- A direct-mode tensor: its shape and its contents as a function from the
row-major flat offset (meaningful below the product of the dimensions). -/
structure NDT where
  shape : List Nat
  data : Nat → ℚ

/-- NDArrayView.as_shape, the reshape primitive, modelled from the spec:
legal exactly when the products of the dimensions agree, and the flat
contents are preserved. -/
def asShape (t : NDT) (newShape : List Nat) : Except PyErr NDT :=
  if prodl newShape = prodl t.shape then .ok ⟨newShape, t.data⟩
  else .error .shapeMismatch

/-- The in-place elementwise copy of a value into a slice view of a parent,
modelled from the spec: writing through the view mutates the parent, so the
positions of the parent inside the box given by the view geometry take the
corresponding values of the value and all other positions are unchanged.
This is the effect of `view.numeric_operation_in_place(0.0, [value], 1.0,
2, 24)` in __setitem__ (self scale 0, copy combine, sum opcode). -/
def copyIntoView (parent : NDT) (starts extents : List Nat) (value : NDT) : NDT :=
  { shape := parent.shape
    data := fun f =>
      let idx := unflattenIdx parent.shape f
      if inBox starts extents idx then
        value.data (flattenIdx extents (List.zipWith (fun i s => i - s) idx starts) 0)
      else parent.data f }

/-- NDArrayViewOpsMixin.__setitem__: resolve the key with keep_singles, then
copy the value into the resulting writable view of the parent.  The view
geometry computed by __getitem__ satisfies the view invariant of the spec
(non-negative offsets and extents) at the call sites modelled here, so it
is converted to natural numbers at this boundary. -/
def ndSetitem (parent : NDT) (key : List NDKey) (value : NDT) : Except PyErr NDT := do
  let r ← ndGetitem parent.shape key true
  .ok (copyIntoView parent (r.starts.map Int.toNat) (r.extents.map Int.toNat) value)

/-- The per-item assignment loop of NDArrayViewOpsMixin.splice:
`for i in range(num_items): res[(slice(0, None),) * axis + (i,)] =
args[i].reshape(shape)`. -/
def spliceWrites (shape : List Nat) (axis : Nat) :
    List NDT → Nat → NDT → Except PyErr NDT
  | [], _, res => .ok res
  | a :: rest, i, res => do
      let v ← asShape a shape
      let key := List.replicate axis (NDKey.slice ⟨some 0, none, none⟩) ++
                 [NDKey.int (Int.ofNat i)]
      let res' ← ndSetitem res key v
      spliceWrites shape axis rest (i + 1) res'

/-- NDArrayViewOpsMixin.splice: concatenate the arguments along an axis; a
negative axis first prepends that many unit axes to the common shape and
then concatenates along axis 0.  The fresh output NDArrayView is allocated
with unspecified contents, modelled as zeros; the print statements of the
source are I/O only and are not modelled. -/
def ndSplice (args : List NDT) (axis : Int) : Except PyErr NDT := do
  let arg0 ← pyGet args 0
  let shape0 := arg0.shape
  let p : List Nat × Nat :=
    if axis < 0 then (List.replicate (-axis).toNat 1 ++ shape0, 0)
    else (shape0, axis.toNat)
  let shape := p.1
  let ax := p.2
  let dAxis ← pyGet shape ax
  let numItems := args.length
  let outShape := shape.take ax ++ [dAxis * numItems] ++ shape.drop (ax + 1)
  spliceWrites shape ax args 0 ⟨outShape, fun _ => 0⟩

/-- A direct-mode tensor handle for the matrix-product adapter: either a
pre-existing runtime handle or an NDArrayView freshly allocated by the
adapter itself, with its shape, element type and device. -/
inductive NDH where
  | ext (id : Nat) (shape : List Nat) (dtype : String) (device : Nat)
  | alloc (shape : List Nat) (dtype : String) (device : Nat)
  deriving DecidableEq, Repr

def NDH.shape : NDH → List Nat
  | .ext _ s _ _ => s
  | .alloc s _ _ => s

def NDH.dtype : NDH → String
  | .ext _ _ t _ => t
  | .alloc _ t _ => t

def NDH.device : NDH → Nat
  | .ext _ _ _ d => d
  | .alloc _ _ d => d

/-- The positional arguments of one NDArrayView.matrix_product call.
Modelled from the spec: the runtime primitive takes a transpose flag for
the output, then each matrix operand preceded by no flag and followed by
its own transpose flag, then the scale factor alpha and the output rank,
matching the seven positional arguments passed by the source. -/
structure MatProdCall where
  transC : Bool
  matA : NDH
  transA : Bool
  matB : NDH
  transB : Bool
  alpha : Int
  outputRank : Nat
  deriving DecidableEq, Repr

/-- The positional arguments of one numeric_operation_in_place call made on
a handle of the matrix-product adapter (self scale, operand list, operand
scale, combine mode, opcode).  The float scales of the source are the exact
literals 0.0, 1.0 and -1.0, modelled as integers. -/
structure NumOpInPlaceCall where
  target : NDH
  selfScale : Int
  operands : List NDH
  otherScale : Int
  combineMode : Nat
  opcode : Nat
  deriving DecidableEq, Repr

/-- NDArrayViewOpsMixin.__matmul__, returning the in-place calls it makes
and the matrix_product call it issues.  A scalar-shaped receiver is first
broadcast-materialized: the source allocates `NDArrayView(shape =
(other.shape[0]), ...)` where the shape argument is the parenthesized int
`other.shape[0]`, not a tuple, so the allocated handle is one-dimensional
with the leading dimension of the other operand; the scalar is then copied
into it in place.  The matrix operands are passed in swapped order (the
source comment: shapes are swapped, so we swap the order as well). -/
def ndMatmul (self other : NDH) : Except PyErr (List NumOpInPlaceCall × MatProdCall) :=
  if self.shape = [] then do
    let d0 ← pyGet other.shape 0
    let self1 := NDH.alloc [d0] other.dtype other.device
    .ok ([⟨self1, 0, [self], 1, 2, 24⟩],
         ⟨false, other, false, self1, false, 1, 1⟩)
  else
    .ok ([], ⟨false, other, false, self, false, 1, 1⟩)

/-- The source aliases dot to __matmul__ (`dot = __matmul__`). -/
def ndDot : NDH → NDH → Except PyErr (List NumOpInPlaceCall × MatProdCall) := ndMatmul

/-- NDArrayViewOpsMixin.dot_transpose: the same swapped-order
matrix_product call as __matmul__, with the transpose flag following the
first matrix operand (the other operand) set. -/
def ndDotTranspose (self other : NDH) : MatProdCall :=
  ⟨false, other, true, self, false, 1, 1⟩

/-- A store mapping handle identities to their element contents, for the
in-place operators: aliased handles are equal identities. -/
def Store : Type := Nat → List ℚ

/-- The trace record of one numeric_operation_in_place call made by the
in-place operators, with handles given by identity. -/
structure IPCall where
  target : Nat
  selfScale : Int
  operands : List Nat
  otherScale : Int
  combineMode : Nat
  opcode : Nat
  deriving DecidableEq, Repr

/-- numeric_operation_in_place, modelled from the spec for the calls made
by __iadd__ and __isub__ (combine mode 2 = copy, opcode 24 = sum): the
target contents become selfScale times the old contents plus otherScale
times the elementwise sum of the operand contents; no other handle
changes. -/
def numericOpInPlace (st : Store) (tgt : Nat) (selfScale : Int)
    (ops : List Nat) (otherScale : Int) : Store :=
  let combined := match ops with
    | [] => []
    | o :: rest => rest.foldl (fun acc p => List.zipWith (· + ·) acc (st p)) (st o)
  fun i => if i = tgt then
             List.zipWith (fun x y => (selfScale : ℚ) * x + (otherScale : ℚ) * y)
               (st tgt) combined
           else st i

/-- NDArrayViewOpsMixin.__isub__: one in-place accumulate of the other
operand scaled by -1.0 into self, then `return self`.  The result is the
trace of in-place calls, the updated store, and the identity of the handle
returned. -/
def ndIsub (st : Store) (self other : Nat) : List IPCall × Store × Nat :=
  ([⟨self, 1, [other], -1, 2, 24⟩], numericOpInPlace st self 1 [other] (-1), self)

/-- NDArrayViewOpsMixin.__iadd__: one in-place accumulate of the other
operand scaled by 1.0 into self, then `return self`. -/
def ndIadd (st : Store) (self other : Nat) : List IPCall × Store × Nat :=
  ([⟨self, 1, [other], 1, 2, 24⟩], numericOpInPlace st self 1 [other] 1, self)

/-- The view of an NDArrayView relevant to ArrayMixin.asarray: whether it
is sparse and its shape (the trailing dimension keys the cached
sparse-to-dense conversion network). -/
structure NDAVm where
  isSparse : Bool
  shape : List Nat
  deriving DecidableEq, Repr

/-- What the external `network.eval` returns when materializing a sparse
object: either a single dense array or a list of them, each identified by
an opaque tag. -/
inductive HostData where
  | single (tag : Nat)
  | multi (tags : List Nat)
  deriving DecidableEq, Repr

/-- An object asarray can be called on: the branches of the source.  Value
and MinibatchData carry a validity mask flag and the payload the external
evaluation would produce; any other object falls through every branch. -/
inductive ArrObj where
  | const (nd : NDAVm)
  | param (nd : NDAVm)
  | ndav (nd : NDAVm)
  | ndmask (nd : NDAVm)
  | value (nd : NDAVm) (hasMask : Bool) (evalData : HostData)
  | minibatchData (nd : NDAVm) (hasMask : Bool) (evalData : HostData)
  | other (tyname : String)
  deriving DecidableEq, Repr

/-- The materialized host result of asarray: a dense ndarray copied from an
NDArrayView, or compressed sparse-row matrices built from the evaluated
dense data. -/
inductive AsArrayResult where
  | dense (nd : NDAVm)
  | csrSingle (tag : Nat)
  | csrList (tags : List Nat)
  deriving DecidableEq, Repr

/-- The warning about ignoring the mask emitted by asarray. -/
def maskWarnMsg : String := "asarray will ignore the mask information"

/-- The warning about the cost of CSR conversion emitted by asarray. -/
def csrSlowWarnMsg : String := "converting Value object to CSR format might be slow"

/-- ArrayMixin.asarray, modelled over the object universe above.  The
branch structure follows the source: Constant/Parameter/NDArrayView read
their sparsity, NDMask is dense, Value and MinibatchData read the mask and
warn when it is present; an object matching no branch leaves is_sparse
unbound, which the source then reads (modelled as NameError).  The
external conversions (to_ndarray and the cached sparse-to-dense network,
keyed by `ndav.shape[-1]`, hence requiring a non-empty shape) are modelled
from the spec as always-succeeding materializations. -/
def asarray (obj : ArrObj) : Except PyErr (List String × AsArrayResult) := do
  let p : NDAVm × Bool × List String × Option HostData ←
    match obj with
    | .const nd => .ok (nd, nd.isSparse, [], none)
    | .param nd => .ok (nd, nd.isSparse, [], none)
    | .ndav nd => .ok (nd, nd.isSparse, [], none)
    | .ndmask nd => .ok (nd, false, [], none)
    | .value nd hasMask ed =>
        .ok (nd, nd.isSparse, if hasMask then [maskWarnMsg] else [], some ed)
    | .minibatchData nd hasMask ed =>
        .ok (nd, nd.isSparse, if hasMask then [maskWarnMsg] else [], some ed)
    | .other _ => .error .nameError
  let ndav := p.1
  let isSparse := p.2.1
  let warns := p.2.2.1
  if isSparse then do
    -- the conversion network is keyed by the trailing dimension, and
    -- Python raises IndexError on shape[-1] of an empty shape
    let _ ← pyGet ndav.shape (ndav.shape.length - 1)
    match p.2.2.2 with
    | some (.single tag) => .ok (warns ++ [csrSlowWarnMsg], .csrSingle tag)
    | some (.multi tags) => .ok (warns ++ [csrSlowWarnMsg], .csrList tags)
    | none => .ok (warns ++ [csrSlowWarnMsg], .csrSingle 0)
  else
    .ok (warns, .dense ndav)

/-- The method names NDArrayViewOpsMixin actually defines (the keys of its
class dictionary): drop_axis is commented out in the source and therefore
absent. -/
def ndMixinDict : List String :=
  [ "_num_op", "_mat_prod",
    "__add__", "__sub__", "__mul__", "__radd__", "__rmul__",
    "__iadd__", "__isub__", "__matmul__", "dot", "dot_transpose",
    "sigmoid", "tanh", "relu", "reduce_log_sum", "reshape",
    "__setitem__", "__getitem__", "splice" ]

/-- The installation list of _add_ndarrayview_ops, in source order. -/
def ndInstallList : List String :=
  [ "__add__", "__sub__", "__mul__",
    "__radd__", "__rmul__",
    "__iadd__", "__isub__",
    "__matmul__",
    "dot", "dot_transpose",
    "sigmoid", "tanh", "relu",
    "reduce_log_sum",
    "reshape", "drop_axis", "__getitem__", "__setitem__", "splice" ]

/-- The loop of _add_ndarrayview_ops: for each name, raise ValueError when
the class already has a truthy attribute of that name, otherwise look the
name up in the mixin class dictionary (KeyError when absent) and set it on
the class. -/
def installOps (names : List String) (attrs : List String) : Except PyErr (List String) :=
  match names with
  | [] => .ok attrs
  | n :: rest =>
      if n ∈ attrs then .error .valueError
      else if n ∈ ndMixinDict then installOps rest (attrs ++ [n])
      else .error (.keyError n)

/-- _add_ndarrayview_ops applied to a class whose (truthy) attributes are
the given names. -/
def addNdarrayviewOps (attrs : List String) : Except PyErr (List String) :=
  installOps ndInstallList attrs

/-- Proof device characterizing where the installation loop stops on a
class with no clashing attributes: the first name of the list that the
mixin class dictionary lacks. -/
def firstMissingName : List String → Option String
  | [] => none
  | n :: rest => if n ∈ ndMixinDict then firstMissingName rest else some n

/-! ## Helper lemmas -/

theorem pyGet_isOk {α : Type} (l : List α) (i : Nat) (h : i < l.length) :
    ∃ v, pyGet l i = .ok v := by
  cases hq : l[i]? with
  | none =>
    have := List.getElem?_eq_none_iff.mp hq
    omega
  | some v => exact ⟨v, by simp [pyGet, hq]⟩

theorem zipWith_congr_fun {α β γ : Type} (f g : α → β → γ)
    (h : ∀ a b, f a b = g a b) :
    ∀ (l₁ : List α) (l₂ : List β), List.zipWith f l₁ l₂ = List.zipWith g l₁ l₂ := by
  intro l₁
  induction l₁ with
  | nil => intro l₂; rfl
  | cons x xs ih =>
    intro l₂
    cases l₂ with
    | nil => rfl
    | cons y ys => simp [List.zipWith, h, ih]

theorem prodl_replicate_one_append (k : Nat) (s : List Nat) :
    prodl (List.replicate k 1 ++ s) = prodl s := by
  induction k with
  | zero => rfl
  | succ n ih => simpa [List.replicate_succ, prodl] using ih

theorem unflattenIdx_length (sh : List Nat) (f : Nat) :
    (unflattenIdx sh f).length = sh.length := by
  induction sh generalizing f with
  | nil => rfl
  | cons d ds ih => simp [unflattenIdx, ih]

theorem flattenIdx_shift (sh : List Nat) :
    ∀ (is : List Nat) (acc : Nat), is.length = sh.length →
      flattenIdx sh is acc = acc * prodl sh + flattenIdx sh is 0 := by
  induction sh with
  | nil =>
    intro is acc h
    cases is with
    | nil => simp [flattenIdx, prodl]
    | cons _ _ => simp at h
  | cons d ds ih =>
    intro is acc h
    cases is with
    | nil => simp at h
    | cons i iss =>
      simp only [flattenIdx]
      rw [ih iss (acc * d + i) (by simpa using h), ih iss (0 * d + i) (by simpa using h)]
      simp [prodl]
      ring

theorem flatten_unflatten (sh : List Nat) :
    ∀ f : Nat, f < prodl sh → flattenIdx sh (unflattenIdx sh f) 0 = f := by
  induction sh with
  | nil =>
    intro f h
    simp [prodl] at h
    simp [flattenIdx, unflattenIdx, h]
  | cons d ds ih =>
    intro f h
    have hP : 0 < prodl ds := by
      rcases Nat.eq_zero_or_pos (prodl ds) with h0 | h0
      · simp [prodl, h0] at h
      · exact h0
    simp only [unflattenIdx, flattenIdx]
    rw [flattenIdx_shift ds _ _ (by rw [unflattenIdx_length])]
    rw [ih (f % prodl ds) (Nat.mod_lt _ hP)]
    have := Nat.div_add_mod f (prodl ds)
    have hlt : f / prodl ds < d := by
      rw [Nat.div_lt_iff_lt_mul hP]
      simpa [prodl, Nat.mul_comm] using h
    simp only [Nat.zero_mul, Nat.zero_add]
    have hcomm : f / prodl ds * prodl ds = prodl ds * (f / prodl ds) :=
      Nat.mul_comm _ _
    omega

theorem unflatten_lt_prodl (sh : List Nat) :
    ∀ f : Nat, f < prodl sh →
      inBox (List.replicate sh.length 0) sh (unflattenIdx sh f) = true := by
  induction sh with
  | nil => intro f h; simp [inBox, unflattenIdx]
  | cons d ds ih =>
    intro f h
    have hP : 0 < prodl ds := by
      rcases Nat.eq_zero_or_pos (prodl ds) with h0 | h0
      · simp [prodl, h0] at h
      · exact h0
    have hlt : f / prodl ds < d := by
      rw [Nat.div_lt_iff_lt_mul hP]
      simpa [prodl, Nat.mul_comm] using h
    simp only [List.length_cons, List.replicate_succ, unflattenIdx, inBox]
    simp [hlt, ih (f % prodl ds) (Nat.mod_lt _ hP)]

theorem zipWith_sub_replicate_zero (l : List Nat) :
    List.zipWith (fun i s => i - s) l (List.replicate l.length 0) = l := by
  induction l with
  | nil => rfl
  | cons x xs ih => simp [List.replicate_succ, List.zipWith, ih]

/-- A copy into a view whose box covers the whole parent replaces every
valid position of the parent by the corresponding value. -/
theorem copyIntoView_full (p v : NDT) (f : Nat) (h : f < prodl p.shape) :
    (copyIntoView p (List.replicate p.shape.length 0) p.shape v).data f = v.data f := by
  simp only [copyIntoView]
  have hb := unflatten_lt_prodl p.shape f h
  rw [if_pos hb]
  have hl : List.replicate p.shape.length (0 : Nat) =
      List.replicate (unflattenIdx p.shape f).length 0 := by
    rw [unflattenIdx_length]
  rw [hl, zipWith_sub_replicate_zero, flatten_unflatten p.shape f h]
theorem map_toNat_ofNat (l : List Nat) : l.map (Int.toNat ∘ Int.ofNat) = l := by
  induction l with
  | nil => rfl
  | cons x xs ih => simp [ih]

theorem ndSetitem_int_zero (d : Nat) (tail : List Nat) (pd : Nat → ℚ) (v : NDT) :
    ndSetitem ⟨d :: tail, pd⟩ [.int 0] v =
      .ok (copyIntoView ⟨d :: tail, pd⟩ (0 :: List.replicate tail.length 0)
            (1 :: tail) v) := by
  simp [ndSetitem, ndGetitem, ndLoop, pySet, List.replicate_succ, List.set,
        copyIntoView, List.map_replicate, Bind.bind, Except.bind,
        List.map_map, map_toNat_ofNat]

theorem installOps_ok_sub (names : List String) :
    ∀ attrs r, installOps names attrs = .ok r → ∀ n ∈ names, n ∈ ndMixinDict := by
  induction names with
  | nil => intro attrs r _ n hn; simp at hn
  | cons m rest ih =>
    intro attrs r hok n hn
    by_cases hm : m ∈ attrs
    · simp [installOps, hm] at hok
    · by_cases hd : m ∈ ndMixinDict
      · rcases List.mem_cons.mp hn with h1 | h1
        · exact h1 ▸ hd
        · exact ih _ r (by simpa [installOps, hm, hd] using hok) n h1
      · simp [installOps, hm, hd] at hok

theorem installOps_fresh (names : List String) :
    ∀ attrs, (∀ n ∈ names, n ∉ attrs) → names.Nodup →
      (∀ m, firstMissingName names = some m →
        installOps names attrs = .error (.keyError m)) := by
  induction names with
  | nil => intro attrs _ _ m hm; simp [firstMissingName] at hm
  | cons n rest ih =>
    intro attrs habs hnd m hm
    have hn : n ∉ attrs := habs n (by simp)
    by_cases hd : n ∈ ndMixinDict
    · have hm' : firstMissingName rest = some m := by
        simpa [firstMissingName, hd] using hm
      have habs' : ∀ x ∈ rest, x ∉ attrs ++ [n] := by
        intro x hx
        simp only [List.mem_append, List.mem_singleton]
        rintro (h1 | h1)
        · exact habs x (by simp [hx]) h1
        · exact (List.nodup_cons.mp hnd).1 (h1 ▸ hx)
      simpa [installOps, hn, hd] using ih (attrs ++ [n]) habs' (List.nodup_cons.mp hnd).2 m hm'
    · have hmn : m = n := by
        have h2 := hm
        simp [firstMissingName, hd] at h2
        exact h2.symm
      subst hmn
      simp [installOps, hn, hd]

theorem installOps_result_shape (names : List String) :
    ∀ attrs, installOps names attrs = .error .valueError ∨
      (∃ n, installOps names attrs = .error (.keyError n)) ∨
      (∃ r, installOps names attrs = .ok r) := by
  induction names with
  | nil => intro attrs; exact Or.inr (Or.inr ⟨attrs, rfl⟩)
  | cons m rest ih =>
    intro attrs
    by_cases hm : m ∈ attrs
    · exact Or.inl (by simp [installOps, hm])
    · by_cases hd : m ∈ ndMixinDict
      · simpa [installOps, hm, hd] using ih (attrs ++ [m])
      · exact Or.inr (Or.inl ⟨m, by simp [installOps, hm, hd]⟩)

theorem installOps_keyError_mem (names : List String) :
    ∀ attrs n, installOps names attrs = .error (.keyError n) →
      n ∈ names ∧ n ∉ ndMixinDict := by
  induction names with
  | nil => intro attrs n h; simp [installOps] at h
  | cons m rest ih =>
    intro attrs n h
    by_cases hm : m ∈ attrs
    · simp [installOps, hm] at h
    · by_cases hd : m ∈ ndMixinDict
      · have h2 := ih (attrs ++ [m]) n (by simpa [installOps, hm, hd] using h)
        exact ⟨List.mem_cons_of_mem m h2.1, h2.2⟩
      · have h3 : m = n := by simpa [installOps, hm, hd] using h
        exact ⟨h3 ▸ List.mem_cons_self m rest, h3 ▸ hd⟩

theorem ndInstallList_missing_unique (n : String)
    (hmem : n ∈ ndInstallList) (hdict : n ∉ ndMixinDict) : n = "drop_axis" := by
  have hf : n ∈ ndInstallList.filter (fun x => decide (x ∉ ndMixinDict)) :=
    List.mem_filter.mpr ⟨hmem, by simp [hdict]⟩
  have he : ndInstallList.filter (fun x => decide (x ∉ ndMixinDict)) =
      [ "drop_axis" ] := by decide
  rw [he] at hf
  simpa using hf
/-- C1: the claim says that on a direct-mode handle of shape (4,5,6) the
key given by slice 1:3, a full slice and the int 2 yields a view of shape
(2,5), every slice-selected axis being retained.  The code instead marks
any slice whose stop is None as a dropped axis (dims_to_keep is assigned
`s.stop is not None`), so the full-slice axis of extent 5 is dropped and
the final reshape maps the 2 by 5 by 1 view (10 elements) to the
one-dimensional shape (2,), which violates the reshape product rule: the
loop produces exactly the geometry below and the whole call fails instead
of returning a (2,5) view.  This contradicts the code comment that only
axes passed a single index are dropped, so it is recorded as a code bug. -/
theorem c1_full_slice_axis_dropped :
    ndLoop [4, 5, 6]
      [.slice ⟨some 1, some 3, none⟩, .slice ⟨none, none, none⟩, .int 2] 0
      ⟨[0, 0, 0], [4, 5, 6], [true, true, true]⟩ =
      .ok ⟨[1, 0, 2], [2, 5, 1], [true, false, false]⟩ ∧
    ndGetitem [4, 5, 6]
      [.slice ⟨some 1, some 3, none⟩, .slice ⟨none, none, none⟩, .int 2] false =
      .error .shapeMismatch := ⟨rfl, rfl⟩

/-- C3: the claim says a slice selector with step other than None or 1,
such as slice(0, 10, 2), raises the SlicingError in both the
graph-building and the direct-mode __getitem__.  The graph-building path
does raise it (the ValueError of the source), but the direct-mode path
evaluates `i[2]` on the int loop index while checking the step and
therefore raises TypeError, never reaching its SlicingError: the third
conjunct records that the two errors differ.  The error message guarding
the unreachable branch shows the intent, so this is recorded as a code
bug of the direct-mode path. -/
theorem c3_step_slice_raises :
    tensorGetitem [.gslice ⟨some 0, some 10, some 2⟩] = .error .valueError ∧
    ndGetitem [10] [.slice ⟨some 0, some 10, some 2⟩] false = .error .typeError ∧
    PyErr.typeError ≠ PyErr.valueError := ⟨rfl, rfl, by decide⟩

/-- C7: on a direct-mode handle of shape (10,), the selector
slice(-3, -1) is normalized by adding the axis size to each negative
bound, so the resulting view starts at offset 7 with extent 2 on that
axis, exactly as the claim states. -/
theorem c7_negative_slice_normalized :
    ndGetitem [10] [.slice ⟨some (-3), some (-1), none⟩] false =
      .ok ⟨[7], [2], [2]⟩ := rfl

/-- C2: a.dot(b), a @ b and dot itself (an alias of __matmul__) issue the
matrix-product primitive with b passed as the first matrix operand and a
as the second, and dot_transpose issues the same call with the transpose
flag of the first matrix operand (which is b) set.  The non-scalar
hypothesis of the first conjunct carves out the scalar receiver, which is
replaced by its broadcast materialization before the product (claim C4). -/
theorem c2_dot_operand_order :
    (∀ a b : NDH, a.shape ≠ [] →
        ndMatmul a b = .ok ([], ⟨false, b, false, a, false, 1, 1⟩)) ∧
    (∀ a b : NDH, ndDot a b = ndMatmul a b) ∧
    (∀ a b : NDH, ndDotTranspose a b = ⟨false, b, true, a, false, 1, 1⟩) := by
  refine ⟨fun a b h => ?_, fun a b => rfl, fun a b => rfl⟩
  simp [ndMatmul, h]

/-- C2 witness: the operand-order theorem applied at concrete handles. -/
theorem c2_dot_operand_order_witness :
    ndMatmul (NDH.ext 0 [3] "float32" 0) (NDH.ext 1 [3, 3] "float32" 0) =
      .ok ([], ⟨false, NDH.ext 1 [3, 3] "float32" 0, false,
                NDH.ext 0 [3] "float32" 0, false, 1, 1⟩) :=
  c2_dot_operand_order.1 _ _ (by decide)

/-- C4 counterexample: for a scalar receiver and an other operand of shape
(2,3), the handle allocated by the broadcast-materialization step has
shape (2,), not the shape (2,3) of the other operand: the source passes
`shape=(other.shape[0])`, a parenthesized int rather than a tuple, so only
the leading dimension is taken, refuting the claim that the new handle
takes its shape from the other operand. -/
theorem c4_scalar_alloc_shape_cex :
    ndMatmul (NDH.ext 0 [] "float32" 0) (NDH.ext 1 [2, 3] "float32" 0) =
      .ok ([⟨NDH.alloc [2] "float32" 0, 0, [NDH.ext 0 [] "float32" 0], 1, 2, 24⟩],
           ⟨false, NDH.ext 1 [2, 3] "float32" 0, false,
            NDH.alloc [2] "float32" 0, false, 1, 1⟩) ∧
    (NDH.alloc [2] "float32" 0).shape ≠ (NDH.ext 1 [2, 3] "float32" 0).shape :=
  ⟨rfl, by decide⟩

/-- C4 amended: whenever the receiver of __matmul__/dot is
zero-dimensional, a new handle is allocated with shape given by the other
operand's leading dimension (coinciding with the other operand's shape
exactly when that operand is one-dimensional), the scalar is
copy-broadcast into it by a single in-place copy call (self scale 0,
operand scale 1, copy combine mode 2, sum opcode 24), and the matrix
product proceeds with the materialized handle in place of the scalar. -/
theorem c4_scalar_matmul_materialization :
    ∀ (a b : NDH) (d : Nat) (ds : List Nat), a.shape = [] → b.shape = d :: ds →
      ndMatmul a b =
        .ok ([⟨NDH.alloc [d] b.dtype b.device, 0, [a], 1, 2, 24⟩],
             ⟨false, b, false, NDH.alloc [d] b.dtype b.device, false, 1, 1⟩) := by
  intro a b d ds ha hb
  simp [ndMatmul, ha, pyGet, hb, Bind.bind, Except.bind]

/-- C4 witness: the amended materialization theorem applied at concrete
handles. -/
theorem c4_scalar_matmul_materialization_witness :
    ndMatmul (NDH.ext 0 [] "float64" 1) (NDH.ext 1 [4, 5] "float64" 1) =
      .ok ([⟨NDH.alloc [4] "float64" 1, 0, [NDH.ext 0 [] "float64" 1], 1, 2, 24⟩],
           ⟨false, NDH.ext 1 [4, 5] "float64" 1, false,
            NDH.alloc [4] "float64" 1, false, 1, 1⟩) :=
  c4_scalar_matmul_materialization _ _ 4 [5] rfl rfl

/-- C5: __isub__ mutates the receiver's storage through a single in-place
accumulate call with the other operand scaled by -1 and returns the very
same handle identity, so every alias (same identity) observes the
mutation; no other handle's storage changes and no fresh handle is bound.
__iadd__ does the same with scale +1. -/
theorem c5_inplace_mutation :
    ∀ (st : Store) (a b : Nat),
      (ndIsub st a b).2.2 = a ∧
      (ndIsub st a b).2.1 a = List.zipWith (fun x y => x - y) (st a) (st b) ∧
      (∀ x, x ≠ a → (ndIsub st a b).2.1 x = st x) ∧
      (ndIsub st a b).1 = [⟨a, 1, [b], -1, 2, 24⟩] ∧
      (ndIadd st a b).2.2 = a ∧
      (ndIadd st a b).2.1 a = List.zipWith (fun x y => x + y) (st a) (st b) ∧
      (∀ x, x ≠ a → (ndIadd st a b).2.1 x = st x) ∧
      (ndIadd st a b).1 = [⟨a, 1, [b], 1, 2, 24⟩] := by
  intro st a b
  refine ⟨rfl, ?_, ?_, rfl, rfl, ?_, ?_, rfl⟩
  · show numericOpInPlace st a 1 [b] (-1) a = _
    simp only [numericOpInPlace, if_pos rfl, List.foldl]
    exact zipWith_congr_fun _ _ (fun x y => by push_cast; ring) _ _
  · intro x hx
    show numericOpInPlace st a 1 [b] (-1) x = st x
    simp [numericOpInPlace, hx]
  · show numericOpInPlace st a 1 [b] 1 a = _
    simp only [numericOpInPlace, if_pos rfl, List.foldl]
    exact zipWith_congr_fun _ _ (fun x y => by push_cast; ring) _ _
  · intro x hx
    show numericOpInPlace st a 1 [b] 1 x = st x
    simp [numericOpInPlace, hx]

/-- C5 witness: the in-place mutation theorem applied at a concrete store,
discharging the frame hypothesis at a concrete distinct handle. -/
theorem c5_inplace_mutation_witness :
    (ndIsub (fun i => if i = 0 then [5] else [2]) 0 1).2.2 = 0 ∧
    (ndIsub (fun i => if i = 0 then [5] else [2]) 0 1).2.1 2 =
      (fun i => if i = 0 then ([5] : List ℚ) else [2]) 2 :=
  ⟨(c5_inplace_mutation _ 0 1).1, (c5_inplace_mutation _ 0 1).2.2.1 2 (by decide)⟩

/-- C8 counterexample: the claim says the tuple/list multi-select path of
the graph-building __getitem__ rejects negative integers with IndexError;
on the selector list containing -1 the code instead succeeds and passes
-1 through unnormalized as the begin index of the emitted slice node. -/
theorem c8_multi_negative_accepted_cex :
    tensorGetitem [.gmulti [.pint (-1)]] = .ok (.sliceOp .var 0 (-1) 0) := rfl

/-- C8 amended: in the graph-building __getitem__ the plain integer path
passes negative indices through without normalizing them, and the
tuple/list multi-select path requires only that every element be of type
int, raising IndexError for non-int elements (and for selector types
outside int, slice, Ellipsis and tuple/list); negative integer elements
are not rejected but pass through unnormalized exactly like the plain
path. -/
theorem c8_negative_index_paths :
    (∀ i : Int, tensorGetitem [.gint i] = .ok (.sliceOp .var 0 i (i + 1))) ∧
    (∀ i : Int, tensorGetitem [.gmulti [.pint i]] = .ok (.sliceOp .var 0 i (i + 1))) ∧
    (∀ t : String, tensorGetitem [.gmulti [.pother t]] = .error .indexError) ∧
    (∀ t : String, tensorGetitem [.gother t] = .error .indexError) := by
  refine ⟨fun i => ?_, fun i => ?_, fun t => rfl, fun t => rfl⟩
  · have hne : i ≠ 0 ∨ i + 1 ≠ 0 := by omega
    simp [tensorGetitem, tLoop, tSliceBranch, pyOrZero_some, hne,
          Bind.bind, Except.bind]
  · simp [tensorGetitem, tLoop, tMultiAccum, pyGet, Bind.bind, Except.bind]

/-- C10 counterexample: the claim quantifies over every class, but a class
that already has one of the listed overloads (here __add__) makes
_add_ndarrayview_ops raise ValueError at the pre-existence check before
the drop_axis lookup is ever reached, so it does not raise KeyError for
every class. -/
theorem c10_preexisting_overload_cex :
    addNdarrayviewOps [ "__add__" ] = .error .valueError ∧
    (∀ n, addNdarrayviewOps [ "__add__" ] ≠ .error (.keyError n)) := by
  refine ⟨rfl, fun n h => ?_⟩
  rw [show addNdarrayviewOps [ "__add__" ] = .error .valueError from rfl] at h
  simp at h

/-- C10 amended: _add_ndarrayview_ops can never complete successfully for
any class, because its installation list contains drop_axis, which the
mixin class dictionary lacks (its definition is commented out), so the
direct-mode operator set can never be fully installed through this
function.  Every run ends in ValueError (a pre-existing listed overload
found before the drop_axis lookup) or in KeyError at drop_axis,
whichever check the loop reaches first in list order: any class having
none of the listed attributes gets the KeyError after the earlier
operators are installed, and so does a class whose only pre-existing
listed attribute follows drop_axis in the list, such as splice. -/
theorem c10_install_never_completes :
    (∀ attrs r, addNdarrayviewOps attrs ≠ .ok r) ∧
    (∀ attrs, addNdarrayviewOps attrs = .error .valueError ∨
        addNdarrayviewOps attrs = .error (.keyError "drop_axis")) ∧
    (∀ attrs, (∀ n ∈ ndInstallList, n ∉ attrs) →
        addNdarrayviewOps attrs = .error (.keyError "drop_axis")) ∧
    addNdarrayviewOps [ "splice" ] = .error (.keyError "drop_axis") := by
  have hnever : ∀ attrs r, addNdarrayviewOps attrs ≠ .ok r := by
    intro attrs r hok
    have hall := installOps_ok_sub ndInstallList attrs r hok "drop_axis" (by decide)
    revert hall
    decide
  refine ⟨hnever, ?_, ?_, ?_⟩
  · intro attrs
    rcases installOps_result_shape ndInstallList attrs with h | ⟨n, h⟩ | ⟨r, h⟩
    · exact Or.inl h
    · have hm := installOps_keyError_mem ndInstallList attrs n h
      have hn := ndInstallList_missing_unique n hm.1 hm.2
      rw [hn] at h
      exact Or.inr h
    · exact absurd h (hnever attrs r)
  · intro attrs h
    exact installOps_fresh ndInstallList attrs h (by decide) _ (by decide)
  · rfl

/-- C10 witness: the amended theorem applied to the empty attribute set. -/
theorem c10_install_never_completes_witness :
    addNdarrayviewOps [] = .error (.keyError "drop_axis") :=
  c10_install_never_completes.2.2.1 [] (by decide)
/-- C6: splicing a single handle of rank at least 1 along axis 0 produces
an output whose shape equals the input shape unchanged, and splicing a
single handle along any negative axis returns the handle reshaped with
that many leading unit axes prepended: the output shape is the prepended
shape and every valid flat position holds the corresponding input value
(row-major reshape preserves flat contents). -/
theorem c6_splice_single :
    (∀ a : NDT, a.shape ≠ [] →
        ∃ r, ndSplice [a] 0 = .ok r ∧ r.shape = a.shape) ∧
    (∀ (a : NDT) (axis : Int), axis < 0 →
        ∃ r, ndSplice [a] axis = .ok r ∧
          r.shape = List.replicate (-axis).toNat 1 ++ a.shape ∧
          ∀ f, f < prodl a.shape → r.data f = a.data f) := by
  constructor
  · intro a h
    obtain ⟨d, tail, hsh⟩ : ∃ d tail, a.shape = d :: tail := by
      cases hs : a.shape with
      | nil => exact absurd hs h
      | cons d t => exact ⟨d, t, rfl⟩
    have hred : ndSplice [a] 0 = .ok
        (copyIntoView ⟨d :: tail, fun _ => 0⟩ (0 :: List.replicate tail.length 0)
          (1 :: tail) ⟨d :: tail, a.data⟩) := by
      simp [ndSplice, pyGet, hsh, spliceWrites, asShape, Bind.bind, Except.bind,
            ndSetitem_int_zero, Int.ofNat_zero, Nat.mul_one]
    exact ⟨_, hred, by simp [copyIntoView, hsh]⟩
  · intro a axis hneg
    obtain ⟨k, hk⟩ : ∃ k, (-axis).toNat = k + 1 := ⟨(-axis).toNat - 1, by omega⟩
    have hprod : prodl (1 :: (List.replicate k 1 ++ a.shape)) = prodl a.shape := by
      simpa [prodl] using prodl_replicate_one_append k a.shape
    have hred : ndSplice [a] axis = .ok
        (copyIntoView ⟨1 :: (List.replicate k 1 ++ a.shape), fun _ => 0⟩
          (0 :: List.replicate (List.replicate k 1 ++ a.shape).length 0)
          (1 :: (List.replicate k 1 ++ a.shape))
          ⟨1 :: (List.replicate k 1 ++ a.shape), a.data⟩) := by
      simp [ndSplice, pyGet, hneg, hk, List.replicate_succ, spliceWrites, asShape,
            hprod, Bind.bind, Except.bind, ndSetitem_int_zero, Int.ofNat_zero]
    refine ⟨_, hred, ?_, ?_⟩
    · show (1 :: (List.replicate k 1 ++ a.shape)) = List.replicate (-axis).toNat 1 ++ a.shape
      rw [hk, List.replicate_succ]
      rfl
    · intro f hf
      have hlen : (0 : Nat) :: List.replicate (List.replicate k 1 ++ a.shape).length 0 =
          List.replicate ((1 : Nat) :: (List.replicate k 1 ++ a.shape)).length 0 := by
        simp [List.replicate_succ]
      show (copyIntoView ⟨1 :: (List.replicate k 1 ++ a.shape), fun _ => 0⟩
          (0 :: List.replicate (List.replicate k 1 ++ a.shape).length 0)
          (1 :: (List.replicate k 1 ++ a.shape))
          ⟨1 :: (List.replicate k 1 ++ a.shape), a.data⟩).data f = a.data f
      rw [hlen]
      exact copyIntoView_full ⟨1 :: (List.replicate k 1 ++ a.shape), fun _ => 0⟩
        ⟨1 :: (List.replicate k 1 ++ a.shape), a.data⟩ f
        (by show f < prodl (1 :: (List.replicate k 1 ++ a.shape)); rw [hprod]; exact hf)

/-- C6 witness: the splice theorem applied to a concrete rank-1 handle and
to the concrete negative axis -1. -/
theorem c6_splice_single_witness :
    (∃ r, ndSplice [⟨[2], fun _ => (37 : ℚ)⟩] 0 = .ok r ∧
        r.shape = (⟨[2], fun _ => (37 : ℚ)⟩ : NDT).shape) ∧
    (∃ r, ndSplice [⟨[2], fun _ => (37 : ℚ)⟩] (-1) = .ok r ∧
        r.shape = List.replicate (-(-1 : Int)).toNat 1 ++
          (⟨[2], fun _ => (37 : ℚ)⟩ : NDT).shape ∧
        ∀ f, f < prodl (⟨[2], fun _ => (37 : ℚ)⟩ : NDT).shape →
          r.data f = (⟨[2], fun _ => (37 : ℚ)⟩ : NDT).data f) :=
  ⟨c6_splice_single.1 _ (by decide), c6_splice_single.2 _ (-1) (by decide)⟩

/-- C9: asarray on a Value or MinibatchData carrying a mask emits the
mask-ignoring warning and still returns a materialized result, a dense
array when the data is dense or CSR sparse matrices (one or a list,
following what the cached conversion network evaluation produces) when it
is sparse; it never raises on account of the ignored mask.  The side
hypothesis only excludes a sparse payload of empty shape, whose failure
(IndexError on shape[-1] while keying the conversion cache) is unrelated
to the mask. -/
theorem c9_masked_asarray_warns :
    ∀ (nd : NDAVm) (ed : HostData), (nd.isSparse = true → nd.shape ≠ []) →
      asarray (.value nd true ed) = .ok
        ((if nd.isSparse then [maskWarnMsg, csrSlowWarnMsg] else [maskWarnMsg]),
         if nd.isSparse then
           (match ed with
            | .single t => AsArrayResult.csrSingle t
            | .multi ts => AsArrayResult.csrList ts)
         else .dense nd) ∧
      asarray (.minibatchData nd true ed) = .ok
        ((if nd.isSparse then [maskWarnMsg, csrSlowWarnMsg] else [maskWarnMsg]),
         if nd.isSparse then
           (match ed with
            | .single t => AsArrayResult.csrSingle t
            | .multi ts => AsArrayResult.csrList ts)
         else .dense nd) := by
  intro nd ed h
  obtain ⟨sp, shape⟩ := nd
  cases sp with
  | false => exact ⟨rfl, rfl⟩
  | true =>
    have hs : shape ≠ [] := h rfl
    obtain ⟨d, tail, rfl⟩ : ∃ d tail, shape = d :: tail := by
      cases shape with
      | nil => exact absurd rfl hs
      | cons d t => exact ⟨d, t, rfl⟩
    obtain ⟨v, hv⟩ := pyGet_isOk (d :: tail) tail.length (by simp)
    cases ed <;> exact ⟨by simp [asarray, hv, Bind.bind, Except.bind],
                        by simp [asarray, hv, Bind.bind, Except.bind]⟩

/-- C9 witness: the masked-conversion theorem applied at a concrete dense
masked Value and MinibatchData. -/
theorem c9_masked_asarray_warns_witness :
    asarray (.value ⟨false, [3]⟩ true (.single 0)) =
      .ok ([maskWarnMsg], .dense ⟨false, [3]⟩) ∧
    asarray (.minibatchData ⟨false, [3]⟩ true (.single 0)) =
      .ok ([maskWarnMsg], .dense ⟨false, [3]⟩) := by
  have h := c9_masked_asarray_warns ⟨false, [3]⟩ (.single 0) (by decide)
  simpa using h
